import Mathlib

/-!
Verification of the subcortex-vis label-mesh extraction and GUI pipeline.

The Python sources are shallowly embedded: scalar voxel values and colors are
rationals and strings, volumes are flattened scalar lists, Python dicts are
insertion-ordered association lists, and the external geometry library
(scipy Gaussian filtering, pyvista contouring and mesh smoothing) is a record
of opaque operations whose contracts appear as explicit hypotheses.
-/

namespace SubcortexVis

/-- Triangle mesh produced by the geometry library. Only the point list is
relevant to the verified properties; it mirrors pyvista PolyData points. -/
structure Mesh where
  points : List (ℚ × ℚ × ℚ)
  deriving DecidableEq

/-- Number of mesh points, mirroring pyvista PolyData.n_points. -/
def Mesh.nPoints (m : Mesh) : Nat := m.points.length

/-- External geometry library operations used by mesh_viz.py: Gaussian
smoothing of a scalar field (sigma, field), marching-cubes contouring
(field, spacing, origin, isovalue) and mesh relaxation smoothing
(mesh, iterations, relaxation factor). Fields are flattened scalar grids. -/
structure GeomLib where
  gaussianFilter : ℚ → List ℚ → List ℚ
  contour : List ℚ → (ℚ × ℚ × ℚ) → (ℚ × ℚ × ℚ) → ℚ → Mesh
  smooth : Mesh → Nat → ℚ → Mesh

/-- Embedding of mesh_viz.extract_isosurface (lines 22-45): optional Gaussian
pre-smoothing when sigma is positive, contouring at the threshold, the empty
surface check returning none, and optional mesh smoothing. -/
def extract_isosurface (lib : GeomLib) (volume : List ℚ)
    (spacing origin : ℚ × ℚ × ℚ) (threshold sigma : ℚ)
    (smooth_iter : Nat) (smooth_relax : ℚ) : Option Mesh :=
  let field := if 0 < sigma then lib.gaussianFilter sigma volume else volume
  let surface := lib.contour field spacing origin threshold
  if surface.nPoints = 0 then none
  else if 0 < smooth_iter then some (lib.smooth surface smooth_iter smooth_relax)
  else some surface

/-- Binary mask field of mesh_viz.extract_label_meshes line 62: voxels equal
to the label become 1.0, all others 0.0. -/
def maskOf (volume : List ℚ) (lbl : ℚ) : List ℚ :=
  volume.map (fun v => if v = lbl then 1 else 0)

/-- Embedding of mesh_viz.extract_label_meshes (lines 48-74): loop over the
requested labels, extract from the binary mask, and collect (label, mesh)
pairs only for labels whose extraction produced a mesh. -/
def extract_label_meshes (lib : GeomLib) (volume : List ℚ) (labels : List ℚ)
    (spacing origin : ℚ × ℚ × ℚ) (sigma : ℚ) (smooth_iter : Nat)
    (smooth_relax threshold : ℚ) : List (ℚ × Mesh) :=
  match labels with
  | [] => []
  | lbl :: rest =>
    match extract_isosurface lib (maskOf volume lbl) spacing origin threshold
        sigma smooth_iter smooth_relax with
    | some mesh =>
        (lbl, mesh) ::
          extract_label_meshes lib volume rest spacing origin sigma smooth_iter
            smooth_relax threshold
    | none =>
        extract_label_meshes lib volume rest spacing origin sigma smooth_iter
          smooth_relax threshold

/-- Concrete instantiation of the geometry library contracts, used only to
evaluate the theorems on closed inputs: identity Gaussian filter, a toy
contour emitting one point per nonzero voxel at or above the isovalue, and
identity mesh smoothing. -/
def demoLib : GeomLib where
  gaussianFilter := fun _ f => f
  contour := fun f _ _ t =>
    ⟨(f.filter (fun x => decide (t ≤ x ∧ x ≠ 0))).map (fun x => (x, 0, 0))⟩
  smooth := fun m _ _ => m

/-- Axis-aligned scene bounds, mirroring pyvista plotter.bounds
[xmin, xmax, ymin, ymax, zmin, zmax]. -/
structure Bounds where
  xmin : ℚ
  xmax : ℚ
  ymin : ℚ
  ymax : ℚ
  zmin : ℚ
  zmax : ℚ
  deriving DecidableEq

/-- Camera placement: position, focal point and up vector, mirroring the
triple assigned to plotter.camera_position. -/
structure Camera where
  position : ℚ × ℚ × ℚ
  focalPoint : ℚ × ℚ × ℚ
  up : ℚ × ℚ × ℚ
  deriving DecidableEq

/-- Outcome of the view preset logic: either the library isometric reset or
an explicitly computed camera. -/
inductive ViewSetting where
  | isometric : ViewSetting
  | explicitCam : Camera → ViewSetting
  deriving DecidableEq

/-- Embedding of mesh_viz set_view (lines 77-105): midpoints and span are
computed from the bounds; iso returns the isometric reset, the four named
presets compute a camera, and any other name falls through to isometric. -/
def set_view (b : Bounds) (view : String) : ViewSetting :=
  let x_mid := (1/2 : ℚ) * (b.xmin + b.xmax)
  let y_mid := (1/2 : ℚ) * (b.ymin + b.ymax)
  let z_mid := (1/2 : ℚ) * (b.zmin + b.zmax)
  let span := max (b.xmax - b.xmin) (max (b.ymax - b.ymin) (max (b.zmax - b.zmin) 1))
  let dist := span * (18/10)
  if view = "iso" then ViewSetting.isometric
  else if view = "left" then
    ViewSetting.explicitCam ⟨(x_mid - dist, y_mid, z_mid), (x_mid, y_mid, z_mid), (0, 0, 1)⟩
  else if view = "right" then
    ViewSetting.explicitCam ⟨(x_mid + dist, y_mid, z_mid), (x_mid, y_mid, z_mid), (0, 0, 1)⟩
  else if view = "top" then
    ViewSetting.explicitCam ⟨(x_mid, y_mid, z_mid + dist), (x_mid, y_mid, z_mid), (0, 1, 0)⟩
  else if view = "front" then
    ViewSetting.explicitCam ⟨(x_mid, y_mid - dist, z_mid), (x_mid, y_mid, z_mid), (0, 0, 1)⟩
  else ViewSetting.isometric

/-- Specification-side view controller, written from the spec wording
(section 4.3): compute the bounds midpoint, span as the maximum of width,
height, depth and 1.0, distance 1.8 times span, place the camera on the
named side with the stated up vector and the midpoint as focal point; iso
and any unrecognized preset mean the library isometric reset. -/
def specViewCamera (b : Bounds) (view : String) : ViewSetting :=
  let mid : ℚ × ℚ × ℚ :=
    ((b.xmin + b.xmax) / 2, (b.ymin + b.ymax) / 2, (b.zmin + b.zmax) / 2)
  let width := b.xmax - b.xmin
  let height := b.ymax - b.ymin
  let depth := b.zmax - b.zmin
  let distance := (18/10 : ℚ) * max width (max height (max depth 1))
  if view = "left" then
    ViewSetting.explicitCam ⟨(mid.1 - distance, mid.2.1, mid.2.2), mid, (0, 0, 1)⟩
  else if view = "right" then
    ViewSetting.explicitCam ⟨(mid.1 + distance, mid.2.1, mid.2.2), mid, (0, 0, 1)⟩
  else if view = "top" then
    ViewSetting.explicitCam ⟨(mid.1, mid.2.1, mid.2.2 + distance), mid, (0, 1, 0)⟩
  else if view = "front" then
    ViewSetting.explicitCam ⟨(mid.1, mid.2.1 - distance, mid.2.2), mid, (0, 0, 1)⟩
  else ViewSetting.isometric

/-- Material configuration chosen by MeshRenderer when adding one mesh. -/
structure MaterialParams where
  ambient : ℚ
  diffuse : ℚ
  specular : ℚ
  lighting : Bool
  smoothShading : Bool
  edgeDisplay : Bool
  deriving DecidableEq

/-- Embedding of gui/renderer.py MeshRenderer add-mesh styling (lines
87-131): the 2D flat branch forces edge display off, the 3D branch passes
the user edge flag through. -/
def add_mesh_material (is_2d show_edges : Bool) : MaterialParams :=
  if is_2d then
    { ambient := 1, diffuse := 1/10, specular := 0,
      lighting := false, smoothShading := false, edgeDisplay := false }
  else
    { ambient := 1/4, diffuse := 3/5, specular := 3/20,
      lighting := true, smoothShading := true, edgeDisplay := show_edges }

/-- Fixed cyclic color palette from gui/constants.py. -/
def PALETTE : List String :=
  ["#4C78A8", "#E45756", "#72B7B2", "#F28E2B",
   "#59A14F", "#B279A2", "#FF9DA6", "#9C755F"]

/-- Palette color by ordinal index, PALETTE[idx mod len(PALETTE)]. -/
def paletteColor (idx : Nat) : String := PALETTE.getD (idx % PALETTE.length) "#000000"

/-- Palette assignment performed by LabelListPanel.populate_labels
(label_list.py lines 153-166): each label receives the palette color of its
ordinal position. -/
def paletteAssign (labels : List ℚ) : List (ℚ × String) :=
  labels.enum.map (fun p => (p.2, paletteColor p.1))

/-- Neutral fallback color used by the label list widgets (for example the
delegate square and the color preview in label_list.py and delegates.py). -/
def neutralColor : String := "#cccccc"

/-- Python dict assignment d[k] = v over an insertion-ordered association
list: an existing key keeps its position and gets the new value, a new key is
appended at the end. -/
def insertA {α : Type} (m : List (ℚ × α)) (k : ℚ) (v : α) : List (ℚ × α) :=
  if m.any (fun p => decide (p.1 = k)) then
    m.map (fun p => if p.1 = k then (k, v) else p)
  else m ++ [(k, v)]

/-- Python dict lookup d.get(k) over the association list. -/
def lookupA {α : Type} (m : List (ℚ × α)) (k : ℚ) : Option α :=
  (m.find? (fun p => decide (p.1 = k))).map Prod.snd

/-- Python dict.update(new): insert the entries of new, in order, into m. -/
def updateA {α : Type} (m new : List (ℚ × α)) : List (ℚ × α) :=
  new.foldl (fun acc p => insertA acc p.1 p.2) m

/-- Dict built from a list of (label, value) entries, as by repeated
assignment starting from an empty dict. -/
def buildDict (entries : List (ℚ × ℚ)) : List (ℚ × ℚ) := updateA [] entries

/-- Mutable state of ColormapPanel relevant to the verified claims: the
loaded label-to-value table and the colormap range. -/
structure PanelState where
  labelValues : List (ℚ × ℚ)
  vmin : ℚ
  vmax : ℚ
  deriving DecidableEq

/-- Python min over a nonempty list (0 on the empty list, unreachable in the
guarded uses). -/
def listMin : List ℚ → ℚ
  | [] => 0
  | x :: xs => xs.foldl min x

/-- Python max over a nonempty list (0 on the empty list, unreachable in the
guarded uses). -/
def listMax : List ℚ → ℚ
  | [] => 0
  | x :: xs => xs.foldl max x

/-- Embedding of ColormapPanel.auto_range (colormap_panel.py lines 226-238):
no change when no values are loaded, otherwise the range becomes
[min - margin, max + margin] with margin 5 percent of the span when the span
is positive and 0.1 otherwise. -/
def auto_range (s : PanelState) : PanelState :=
  if s.labelValues = [] then s
  else
    let values := s.labelValues.map Prod.snd
    let vmin := listMin values
    let vmax := listMax values
    let margin := if vmin < vmax then (vmax - vmin) * (5/100) else 1/10
    { s with vmin := vmin - margin, vmax := vmax + margin }

/-- Margin rule as the spec words it (section 3, Colormap Range): 0.1 when
all values are equal, else 5 percent of the value span. -/
def specMargin (values : List ℚ) : ℚ :=
  if listMax values = listMin values then 1/10
  else (listMax values - listMin values) * (5/100)

/-- CSV cell: the raw text together with the result of the Python float
builtin applied to it (none when float raises ValueError). -/
structure Cell where
  text : String
  num : Option ℚ
  deriving DecidableEq

/-- Python s.lower().strip() over the character list of s, used for header
alias comparison. -/
def pyLowerStrip (s : String) : List Char :=
  (((s.data.map Char.toLower).dropWhile Char.isWhitespace).reverse.dropWhile
    Char.isWhitespace).reverse

/-- Header aliases recognized for the label column (colormap_panel.py line 156). -/
def labelAliases : List (List Char) :=
  ["label".data, "roi".data, "region".data, "id".data, "index".data]

/-- Header aliases recognized for the value column (colormap_panel.py line 158). -/
def valueAliases : List (List Char) :=
  ["value".data, "score".data, "overlap".data, "weight".data, "magnitude".data]

/-- Column detection of ColormapPanel load-values (lines 149-159): start from
columns (0, 1) and scan the header; the last alias match for each role wins. -/
def detectCols (header : List Cell) : Nat × Nat :=
  header.enum.foldl
    (fun cols p =>
      let h := pyLowerStrip p.2.text
      let cols1 := if labelAliases.contains h then (p.1, cols.2) else cols
      if valueAliases.contains h then (cols1.1, p.1) else cols1)
    (0, 1)

/-- Float value of the cell at index i of a row, none when the index is out
of range (IndexError) or the text does not parse (ValueError). -/
def cellNumAt (row : List Cell) (i : Nat) : Option ℚ :=
  (row.get? i).bind Cell.num

/-- Header-as-data ingestion (colormap_panel.py lines 161-169): the first row
is stored when both detected columns parse as floats. -/
def headerEntry (header : List Cell) (lc vc : Nat) : Option (ℚ × ℚ) :=
  match cellNumAt header lc, cellNumAt header vc with
  | some l, some v => some (l, v)
  | _, _ => none

/-- Body-row ingestion (colormap_panel.py lines 171-179): rows shorter than
two cells are skipped, then both detected columns must parse as floats. -/
def rowEntry (lc vc : Nat) (row : List Cell) : Option (ℚ × ℚ) :=
  if row.length < 2 then none
  else
    match cellNumAt row lc, cellNumAt row vc with
    | some l, some v => some (l, v)
    | _, _ => none

/-- All (label, value) entries a value file contributes, in file order: the
first row doubles as column-detection header and, when numeric, as data. -/
def parseEntries (file : List (List Cell)) : List (ℚ × ℚ) :=
  match file with
  | [] => []
  | header :: body =>
    let cols := detectCols header
    (match headerEntry header cols.1 cols.2 with
     | some e => [e]
     | none => []) ++ body.filterMap (rowEntry cols.1 cols.2)

/-- Result of a value-table load: the panel state afterwards, and whether the
values-loaded notification was emitted. -/
structure LoadOutcome where
  state : PanelState
  emitted : Bool
  deriving DecidableEq

/-- Embedding of ColormapPanel load-values (colormap_panel.py lines 134-191)
for a readable file: a nonexistent path returns immediately; otherwise the
value table is cleared first, the file rows are parsed into it, a table that
ends up empty returns without emitting, and a nonempty table is followed by
auto_range and the values-loaded emission. -/
def load_values (s : PanelState) (pathExists : Bool)
    (file : List (List Cell)) : LoadOutcome :=
  if pathExists = false then ⟨s, false⟩
  else
    let cleared : PanelState := { s with labelValues := [] }
    let lv := buildDict (parseEntries file)
    if lv = [] then ⟨cleared, false⟩
    else ⟨auto_range { cleared with labelValues := lv }, true⟩

/-- Normalization used by get_color_for_value, mirroring matplotlib
Normalize(vmin, vmax) applied to a value. -/
def normalizeValue (vmin vmax v : ℚ) : ℚ := (v - vmin) / (vmax - vmin)

/-- Embedding of ColormapPanel.get_color_for_value (lines 268-275): cmap
stands for the matplotlib colormap lookup applied to the normalized value;
a missing bound defaults to 0 or 1. -/
def get_color_for_value (cmap : ℚ → String) (vmin vmax : Option ℚ)
    (value : ℚ) : String :=
  cmap (normalizeValue (vmin.getD 0) (vmax.getD 1) value)

/-- Embedding of ColormapPanel.compute_colors (lines 277-283): only labels
with a known value receive a colormap color. -/
def compute_colors (cmap : ℚ → String) (vmin vmax : Option ℚ)
    (labelValues : List (ℚ × ℚ)) (labels : List ℚ) : List (ℚ × String) :=
  labels.foldl
    (fun colors lbl =>
      match lookupA labelValues lbl with
      | some v => insertA colors lbl (get_color_for_value cmap vmin vmax v)
      | none => colors)
    []

/-- Colormap-derived (label, color) pairs in iteration order, used to state
the compute_colors characterization. -/
def colormapPairs (cmap : ℚ → String) (vmin vmax : Option ℚ)
    (labelValues : List (ℚ × ℚ)) (labels : List ℚ) : List (ℚ × String) :=
  labels.filterMap
    (fun lbl =>
      (lookupA labelValues lbl).map
        (fun v => (lbl, get_color_for_value cmap vmin vmax v)))

/-- Embedding of MeshGui update-colors-from-colormap (main_window.py lines
207-219): outside colormap mode every label is reassigned its ordinal
palette color; in colormap mode the computed colors are merged into the
existing color dict with dict.update semantics. -/
def update_colors_from_colormap (useColormap : Bool) (cmap : ℚ → String)
    (vmin vmax : Option ℚ) (labelValues : List (ℚ × ℚ))
    (labelColors : List (ℚ × String)) : List (ℚ × String) :=
  if useColormap = false then
    labelColors.enum.map (fun p => (p.2.1, paletteColor p.1))
  else
    updateA labelColors
      (compute_colors cmap vmin vmax labelValues (labelColors.map Prod.fst))

/-- Render-time color resolution of MeshRenderer.render_meshes line 54: the
color dict entry when present, else the palette color of the position of the
mesh in the render list. -/
def renderColor (labelColors : List (ℚ × String)) (idx : Nat) (lbl : ℚ) : String :=
  (lookupA labelColors lbl).getD (paletteColor idx)

/-- Debounce quiet period RENDER_DEBOUNCE_MS from gui/constants.py. -/
def RENDER_DEBOUNCE_MS : Nat := 80

/-- State of the render scheduler: current render parameters, the pending
single-shot timer deadline if armed, and the log of executed renders as
(time, parameters used) pairs. -/
structure Sched (P : Type) where
  params : P
  deadline : Option Nat
  renders : List (Nat × P)

/-- Fire the pending timer when its deadline has been reached by time t: one
render executes with the parameters current at that moment and the timer
disarms. -/
def fireDue {P : Type} (s : Sched P) (t : Nat) : Sched P :=
  match s.deadline with
  | some d =>
    if d ≤ t then { s with deadline := none, renders := s.renders ++ [(d, s.params)] }
    else s
  | none => s

/-- One parameter-change event at time t with new parameters p: any due
timer fires first, the parameters are updated, and, mirroring
MeshGui schedule-render (main_window.py lines 223-227), the single-shot
timer restarts at t plus the quiet period only when a volume is loaded. -/
def applyEvent {P : Type} (loaded : Bool) (quiet : Nat) (s : Sched P)
    (e : Nat × P) : Sched P :=
  let s1 := fireDue s e.1
  let s2 := { s1 with params := e.2 }
  if loaded then { s2 with deadline := some (e.1 + quiet) } else s2

/-- After the last event, time passes and any still-armed timer fires. -/
def finalizeSched {P : Type} (s : Sched P) : Sched P :=
  match s.deadline with
  | some d => { s with deadline := none, renders := s.renders ++ [(d, s.params)] }
  | none => s

/-- Run the scheduler over a time-ordered list of parameter-change events
starting from initial parameters with no timer armed. -/
def runSched {P : Type} (loaded : Bool) (quiet : Nat) (p0 : P)
    (events : List (Nat × P)) : Sched P :=
  finalizeSched (events.foldl (applyEvent loaded quiet) ⟨p0, none, []⟩)

/-- Insert a rational into an ascending list, keeping it ascending. -/
def insertSorted (x : ℚ) : List ℚ → List ℚ
  | [] => [x]
  | y :: ys => if x ≤ y then x :: y :: ys else y :: insertSorted x ys

/-- Ascending insertion sort, modeling the Python sorted builtin. -/
def sortAsc (l : List ℚ) : List ℚ := l.foldr insertSorted []

/-- Label derivation of MeshGui load-volume line 158: the sorted set of
distinct nonzero voxel values. -/
def sortedNonzeroLabels (volume : List ℚ) : List ℚ :=
  sortAsc ((volume.filter (fun x => decide (x ≠ 0))).dedup)

/-- Session state of MeshGui relevant to the verified claims: the installed
volume with its geometry, the label list contents with check states and
colors, the rendered scene, and the status message. -/
structure GuiState where
  volume : Option (List ℚ)
  spacing : Option (ℚ × ℚ × ℚ)
  origin : Option (ℚ × ℚ × ℚ)
  labelItems : List ℚ
  labelChecked : List ℚ
  labelColors : List (ℚ × String)
  scene : List (ℚ × Mesh)
  status : String
  deriving DecidableEq

/-- Embedding of MeshGui render-scene (main_window.py lines 229-264): no
volume means only a status change; no checked labels clears the scene; an
extraction that yields nothing clears the scene; otherwise the extracted
meshes become the scene. The GUI passes smooth_relax 0.1 and threshold 0.5
implicitly through the extract_label_meshes defaults. -/
def render_scene (lib : GeomLib) (sigma : ℚ) (smooth_iter : Nat)
    (s : GuiState) : GuiState :=
  match s.volume, s.spacing, s.origin with
  | some v, some sp, some o =>
    if s.labelChecked = [] then
      { s with scene := [], status := "No labels selected." }
    else
      let lm := extract_label_meshes lib v s.labelChecked sp o sigma smooth_iter
        (1/10) (1/2)
      if lm = [] then
        { s with scene := [], status := "No meshes extracted with current settings." }
      else { s with scene := lm, status := "Rendered" }
  | _, _, _ => { s with status := "Load a NIfTI first." }

/-- Embedding of MeshGui load-volume (main_window.py lines 141-167): a
nonexistent path or a decoding failure only sets the status message; on
success the volume triple is installed, the labels are derived and the label
list repopulated all checked with palette colors, and the scene is rendered
immediately. The decoded argument stands for the nib.load result, none when
decoding raises. -/
def load_volume (lib : GeomLib) (sigma : ℚ) (smooth_iter : Nat) (s : GuiState)
    (pathExists : Bool)
    (decoded : Option (List ℚ × (ℚ × ℚ × ℚ) × (ℚ × ℚ × ℚ))) : GuiState :=
  if pathExists = false then { s with status := "File not found." }
  else
    match decoded with
    | none => { s with status := "Failed to load." }
    | some (v, sp, o) =>
      let labels := sortedNonzeroLabels v
      render_scene lib sigma smooth_iter
        { s with volume := some v, spacing := some sp, origin := some o,
                 labelItems := labels, labelChecked := labels,
                 labelColors := paletteAssign labels,
                 status := "Loaded." }

/-- Concrete session state used to evaluate the load-failure theorem on a
closed input. -/
def sampleGui : GuiState :=
  ⟨some [1, 2], some (1, 1, 1), some (0, 0, 0), [1, 2], [1, 2],
   [(1, "#4C78A8"), (2, "#E45756")], [], "previous"⟩

/-! ## Helper lemmas -/

theorem extract_isosurface_nPoints_ne_zero (lib : GeomLib)
    (hsmooth : ∀ m n r, (lib.smooth m n r).nPoints = m.nPoints)
    (volume : List ℚ) (spacing origin : ℚ × ℚ × ℚ) (threshold sigma : ℚ)
    (smooth_iter : Nat) (smooth_relax : ℚ) (m : Mesh)
    (h : extract_isosurface lib volume spacing origin threshold sigma
      smooth_iter smooth_relax = some m) :
    m.nPoints ≠ 0 := by
  simp only [extract_isosurface] at h
  by_cases hz : (lib.contour (if 0 < sigma then lib.gaussianFilter sigma volume
      else volume) spacing origin threshold).nPoints = 0
  · rw [if_pos hz] at h
    exact Option.noConfusion h
  · rw [if_neg hz] at h
    by_cases hi : 0 < smooth_iter
    · rw [if_pos hi] at h
      have hm := Option.some.inj h
      rw [← hm, hsmooth]
      exact hz
    · rw [if_neg hi] at h
      have hm := Option.some.inj h
      rw [← hm]
      exact hz

theorem extract_label_meshes_fst_sublist (lib : GeomLib) (volume labels : List ℚ)
    (spacing origin : ℚ × ℚ × ℚ) (sigma : ℚ) (smooth_iter : Nat)
    (smooth_relax threshold : ℚ) :
    ((extract_label_meshes lib volume labels spacing origin sigma smooth_iter
      smooth_relax threshold).map Prod.fst).Sublist labels := by
  induction labels with
  | nil => simp [extract_label_meshes]
  | cons lbl rest ih =>
    rw [extract_label_meshes]
    cases h : extract_isosurface lib (maskOf volume lbl) spacing origin threshold
        sigma smooth_iter smooth_relax with
    | some mesh => simpa using ih.cons₂ lbl
    | none => exact ih.cons lbl

theorem extract_label_meshes_mem_nPoints (lib : GeomLib)
    (hsmooth : ∀ m n r, (lib.smooth m n r).nPoints = m.nPoints)
    (volume labels : List ℚ) (spacing origin : ℚ × ℚ × ℚ) (sigma : ℚ)
    (smooth_iter : Nat) (smooth_relax threshold : ℚ) :
    ∀ p ∈ extract_label_meshes lib volume labels spacing origin sigma smooth_iter
      smooth_relax threshold, p.2.nPoints ≠ 0 := by
  induction labels with
  | nil => simp [extract_label_meshes]
  | cons lbl rest ih =>
    rw [extract_label_meshes]
    cases h : extract_isosurface lib (maskOf volume lbl) spacing origin threshold
        sigma smooth_iter smooth_relax with
    | some mesh =>
      intro p hp
      rcases List.mem_cons.mp hp with hp | hp
      · subst hp
        exact extract_isosurface_nPoints_ne_zero lib hsmooth _ _ _ _ _ _ _ _ h
      · exact ih p hp
    | none => exact ih

theorem extract_label_meshes_not_mem_of_none (lib : GeomLib)
    (volume labels : List ℚ) (spacing origin : ℚ × ℚ × ℚ) (sigma : ℚ)
    (smooth_iter : Nat) (smooth_relax threshold : ℚ) (lbl : ℚ)
    (hnone : extract_isosurface lib (maskOf volume lbl) spacing origin threshold
      sigma smooth_iter smooth_relax = none) :
    lbl ∉ (extract_label_meshes lib volume labels spacing origin sigma smooth_iter
      smooth_relax threshold).map Prod.fst := by
  induction labels with
  | nil => simp [extract_label_meshes]
  | cons l rest ih =>
    rw [extract_label_meshes]
    cases h : extract_isosurface lib (maskOf volume l) spacing origin threshold
        sigma smooth_iter smooth_relax with
    | some mesh =>
      simp only [List.map_cons, List.mem_cons, not_or]
      refine ⟨fun he => ?_, ih⟩
      rw [he] at hnone
      rw [hnone] at h
      cases h
    | none => exact ih

theorem maskOf_all_zero (volume : List ℚ) (lbl : ℚ)
    (hlbl : ∀ v ∈ volume, v ≠ lbl) :
    ∀ x ∈ maskOf volume lbl, x = 0 := by
  intro x hx
  rcases List.mem_map.mp hx with ⟨v, hv, rfl⟩
  simp [hlbl v hv]

/-! ## Claim theorems -/

/-- Claim C1: for every volume, label sequence, spacing, origin, sigma,
smoothing iteration count and threshold, extract_label_meshes returns pairs
whose labels form an order-preserving subsequence of the input labels, no
returned mesh has zero points, and a label whose extraction yields no
geometry is omitted rather than paired with an empty mesh. The mesh
smoothing contract of the external library (relaxation preserves the point
count) enters as the hypothesis hsmooth. -/
theorem extract_label_meshes_ordered_nonempty (lib : GeomLib)
    (hsmooth : ∀ m n r, (lib.smooth m n r).nPoints = m.nPoints)
    (volume labels : List ℚ) (spacing origin : ℚ × ℚ × ℚ) (sigma : ℚ)
    (smooth_iter : Nat) (smooth_relax threshold : ℚ) :
    ((extract_label_meshes lib volume labels spacing origin sigma smooth_iter
      smooth_relax threshold).map Prod.fst).Sublist labels ∧
    (∀ p ∈ extract_label_meshes lib volume labels spacing origin sigma smooth_iter
      smooth_relax threshold, p.2.nPoints ≠ 0) ∧
    (∀ lbl,
      extract_isosurface lib (maskOf volume lbl) spacing origin threshold sigma
        smooth_iter smooth_relax = none →
      lbl ∉ (extract_label_meshes lib volume labels spacing origin sigma
        smooth_iter smooth_relax threshold).map Prod.fst) :=
  ⟨extract_label_meshes_fst_sublist lib volume labels spacing origin sigma
      smooth_iter smooth_relax threshold,
   extract_label_meshes_mem_nPoints lib hsmooth volume labels spacing origin
      sigma smooth_iter smooth_relax threshold,
   fun lbl h => extract_label_meshes_not_mem_of_none lib volume labels spacing
      origin sigma smooth_iter smooth_relax threshold lbl h⟩

/-- Witness for C1 at a concrete volume, label list and geometry library. -/
theorem extract_label_meshes_ordered_nonempty_witness :
    ((extract_label_meshes demoLib [0, 1, 2, 1] [1, 2, 3] (1, 1, 1) (0, 0, 0) 1 5
      (1/10) (1/2)).map Prod.fst).Sublist [1, 2, 3] ∧
    (∀ p ∈ extract_label_meshes demoLib [0, 1, 2, 1] [1, 2, 3] (1, 1, 1) (0, 0, 0)
      1 5 (1/10) (1/2), p.2.nPoints ≠ 0) ∧
    (∀ lbl,
      extract_isosurface demoLib (maskOf [0, 1, 2, 1] lbl) (1, 1, 1) (0, 0, 0)
        (1/2) 1 5 (1/10) = none →
      lbl ∉ (extract_label_meshes demoLib [0, 1, 2, 1] [1, 2, 3] (1, 1, 1)
        (0, 0, 0) 1 5 (1/10) (1/2)).map Prod.fst) :=
  extract_label_meshes_ordered_nonempty demoLib (fun _ _ _ => rfl)
    [0, 1, 2, 1] [1, 2, 3] (1, 1, 1) (0, 0, 0) 1 5 (1/10) (1/2)

/-- Claim C2: a label that matches no voxel of the volume is omitted from the
extraction output for every sigma, smoothing iteration count and the fixed
threshold 0.5, and no error is raised (the embedding is total). The external
library contracts enter as hypotheses: Gaussian filtering maps an all-zero
field to an all-zero field, and contouring a field that is zero everywhere at
a nonzero isovalue yields an empty surface. -/
theorem absent_label_omitted (lib : GeomLib)
    (hgauss : ∀ s f, (∀ x ∈ f, x = 0) → ∀ x ∈ lib.gaussianFilter s f, x = 0)
    (hcontour : ∀ f sp o t, t ≠ 0 → (∀ x ∈ f, x = 0) →
      (lib.contour f sp o t).nPoints = 0)
    (volume labels : List ℚ) (lbl : ℚ) (hlbl : ∀ v ∈ volume, v ≠ lbl)
    (spacing origin : ℚ × ℚ × ℚ) (sigma : ℚ) (smooth_iter : Nat)
    (smooth_relax : ℚ) :
    lbl ∉ (extract_label_meshes lib volume labels spacing origin sigma
      smooth_iter smooth_relax (1/2)).map Prod.fst := by
  have hmask := maskOf_all_zero volume lbl hlbl
  have hfield : ∀ x ∈ (if 0 < sigma then lib.gaussianFilter sigma (maskOf volume lbl)
      else maskOf volume lbl), x = 0 := by
    split
    · exact hgauss sigma (maskOf volume lbl) hmask
    · exact hmask
  have hzero := hcontour _ spacing origin (1/2) (by norm_num) hfield
  apply extract_label_meshes_not_mem_of_none
  simp only [extract_isosurface]
  rw [if_pos hzero]

/-- Witness for C2 at a concrete volume where label 2 matches no voxel. -/
theorem absent_label_omitted_witness :
    (2 : ℚ) ∉ (extract_label_meshes demoLib [0, 3, 3] [2, 3] (1, 1, 1) (0, 0, 0)
      1 5 (1/10) (1/2)).map Prod.fst :=
  absent_label_omitted demoLib (fun _ _ h => h)
    (fun f _ _ t ht hf => by
      simp only [demoLib, Mesh.nPoints, List.length_map]
      rw [List.length_eq_zero, List.filter_eq_nil_iff]
      intro x hx
      rw [hf x hx]
      simp)
    [0, 3, 3] [2, 3] 2 (by decide) (1, 1, 1) (0, 0, 0) 1 5 (1/10)

theorem foldl_min_le (xs : List ℚ) (a : ℚ) : xs.foldl min a ≤ a := by
  induction xs generalizing a with
  | nil => exact le_refl a
  | cons y ys ih => exact le_trans (ih (min a y)) (min_le_left a y)

theorem le_foldl_max (xs : List ℚ) (a : ℚ) : a ≤ xs.foldl max a := by
  induction xs generalizing a with
  | nil => exact le_refl a
  | cons y ys ih => exact le_trans (le_max_left a y) (ih (max a y))

theorem listMin_le_listMax (values : List ℚ) (h : values ≠ []) :
    listMin values ≤ listMax values := by
  match values with
  | [] => exact absurd rfl h
  | x :: xs => exact le_trans (foldl_min_le xs x) (le_foldl_max xs x)

theorem code_margin_eq_specMargin (values : List ℚ) (h : values ≠ []) :
    (if listMin values < listMax values then
      (listMax values - listMin values) * (5/100) else 1/10) = specMargin values := by
  rcases lt_or_eq_of_le (listMin_le_listMax values h) with hlt | heq
  · rw [if_pos hlt, specMargin, if_neg (ne_of_gt hlt)]
  · rw [if_neg (by rw [heq]; exact lt_irrefl _), specMargin, if_pos heq.symm]

theorem auto_range_example :
    (auto_range ⟨[(1, 2/10), (2, 8/10)], 0, 1⟩).vmin = 17/100 ∧
    (auto_range ⟨[(1, 2/10), (2, 8/10)], 0, 1⟩).vmax = 83/100 := by
  have hne : ([((1:ℚ), (2:ℚ)/10), (2, 8/10)] : List (ℚ × ℚ)) ≠ [] := by simp
  have hmin : listMin (([((1:ℚ), (2:ℚ)/10), (2, 8/10)] : List (ℚ × ℚ)).map Prod.snd)
      = 2/10 := by
    simp only [List.map, listMin, List.foldl]
    norm_num
  have hmax : listMax (([((1:ℚ), (2:ℚ)/10), (2, 8/10)] : List (ℚ × ℚ)).map Prod.snd)
      = 8/10 := by
    simp only [List.map, listMax, List.foldl]
    norm_num
  constructor <;>
  · simp only [auto_range, if_neg hne, hmin, hmax]
    rw [if_pos (by norm_num : (2:ℚ)/10 < 8/10)]
    norm_num

/-- Claim C3: auto_range leaves the range unchanged when no values are
loaded; otherwise it sets the range to [min - margin, max + margin] where the
margin is 5 percent of the span when the values differ and 0.1 when they are
all equal, and on the value table mapping 1 to 0.2 and 2 to 0.8 the resulting
range is [0.17, 0.83]. -/
theorem auto_range_spec :
    (∀ s : PanelState, s.labelValues = [] → auto_range s = s) ∧
    (∀ s : PanelState, s.labelValues ≠ [] →
      (auto_range s).vmin =
        listMin (s.labelValues.map Prod.snd) -
          specMargin (s.labelValues.map Prod.snd) ∧
      (auto_range s).vmax =
        listMax (s.labelValues.map Prod.snd) +
          specMargin (s.labelValues.map Prod.snd)) ∧
    (auto_range ⟨[(1, 2/10), (2, 8/10)], 0, 1⟩).vmin = 17/100 ∧
    (auto_range ⟨[(1, 2/10), (2, 8/10)], 0, 1⟩).vmax = 83/100 := by
  refine ⟨?_, ?_, auto_range_example.1, auto_range_example.2⟩
  · intro s hs
    simp [auto_range, hs]
  · intro s hs
    have hne : s.labelValues.map Prod.snd ≠ [] := fun hmap =>
      hs (List.map_eq_nil_iff.mp hmap)
    simp only [auto_range, if_neg hs]
    rw [code_margin_eq_specMargin _ hne]
    exact ⟨rfl, rfl⟩

/-- Witness for C3: the empty table is a no-op and the two-value table gets
the spec margin applied. -/
theorem auto_range_spec_witness :
    auto_range (⟨[], 0, 1⟩ : PanelState) = (⟨[], 0, 1⟩ : PanelState) ∧
    ((auto_range (⟨[(1, 2/10), (2, 8/10)], 0, 1⟩ : PanelState)).vmin =
        listMin (([(1, 2/10), (2, 8/10)] : List (ℚ × ℚ)).map Prod.snd) -
          specMargin (([(1, 2/10), (2, 8/10)] : List (ℚ × ℚ)).map Prod.snd) ∧
      (auto_range (⟨[(1, 2/10), (2, 8/10)], 0, 1⟩ : PanelState)).vmax =
        listMax (([(1, 2/10), (2, 8/10)] : List (ℚ × ℚ)).map Prod.snd) +
          specMargin (([(1, 2/10), (2, 8/10)] : List (ℚ × ℚ)).map Prod.snd)) :=
  ⟨auto_range_spec.1 ⟨[], 0, 1⟩ rfl,
   auto_range_spec.2.1 ⟨[(1, 2/10), (2, 8/10)], 0, 1⟩ (by decide)⟩

/-- Claim C5: the 2D flat style uses ambient 1.0, diffuse 0.1, specular 0,
unlit, flat shading and never draws edges regardless of the edge flag, while
the 3D shaded style uses ambient 0.25, diffuse 0.6, specular 0.15, lit,
smooth shading, and edge drawing equal to the edge flag. -/
theorem add_mesh_material_spec (show_edges : Bool) :
    (add_mesh_material true show_edges).ambient = 1 ∧
    (add_mesh_material true show_edges).diffuse = 1/10 ∧
    (add_mesh_material true show_edges).specular = 0 ∧
    (add_mesh_material true show_edges).lighting = false ∧
    (add_mesh_material true show_edges).smoothShading = false ∧
    (add_mesh_material true show_edges).edgeDisplay = false ∧
    (add_mesh_material false show_edges).ambient = 1/4 ∧
    (add_mesh_material false show_edges).diffuse = 3/5 ∧
    (add_mesh_material false show_edges).specular = 3/20 ∧
    (add_mesh_material false show_edges).lighting = true ∧
    (add_mesh_material false show_edges).smoothShading = true ∧
    (add_mesh_material false show_edges).edgeDisplay = show_edges := by
  cases show_edges <;>
    exact ⟨rfl, rfl, rfl, rfl, rfl, rfl, rfl, rfl, rfl, rfl, rfl, rfl⟩

/-- Claim C6: set_view agrees with the specification-side view controller on
every bounds and preset name, so the iso preset and every unrecognized name
give the library isometric reset, and the four named presets place the
camera at distance 1.8 times the span from the bounds midpoint along the
stated axis with the stated up vector and the midpoint as focal point; the
iso preset is independent of the bounds. -/
theorem set_view_matches_spec :
    (∀ (b : Bounds) (view : String), set_view b view = specViewCamera b view) ∧
    (∀ b b2 : Bounds, set_view b "iso" = set_view b2 "iso") := by
  constructor
  · intro b view
    by_cases h1 : view = "iso"
    · subst h1
      simp [set_view, specViewCamera]
    · by_cases h2 : view = "left"
      · subst h2
        simp [set_view, specViewCamera]
        repeat' apply And.intro
        all_goals ring
      · by_cases h3 : view = "right"
        · subst h3
          simp [set_view, specViewCamera]
          repeat' apply And.intro
          all_goals ring
        · by_cases h4 : view = "top"
          · subst h4
            simp [set_view, specViewCamera]
            repeat' apply And.intro
            all_goals ring
          · by_cases h5 : view = "front"
            · subst h5
              simp [set_view, specViewCamera]
              repeat' apply And.intro
              all_goals ring
            · simp [set_view, specViewCamera, h1, h2, h3, h4, h5]
  · intro b b2
    simp [set_view]

theorem lookupA_map_replace {α : Type} (m : List (ℚ × α)) (a : ℚ) (b : α) (k : ℚ) :
    lookupA (m.map (fun p => if p.1 = a then (a, b) else p)) k =
      if k = a then (if m.any (fun p => decide (p.1 = a)) then some b else none)
      else lookupA m k := by
  induction m with
  | nil => by_cases hk : k = a <;> simp [lookupA, hk]
  | cons p rest ih =>
    simp only [List.map_cons, List.any_cons, Bool.or_eq_true]
    by_cases hp : p.1 = a
    · by_cases hk : k = a
      · subst hk
        simp only [if_pos hp, lookupA]
        rw [List.find?_cons_of_pos _ (by simp)]
        rw [if_pos (Or.inl (by simp [hp]))]
        rfl
      · have hak : ¬a = k := fun h => hk h.symm
        have hpk : ¬p.1 = k := fun h => hak (hp ▸ h)
        simp only [if_pos hp, lookupA, if_neg hk]
        rw [List.find?_cons_of_neg _ (by simp [hak]),
          List.find?_cons_of_neg _ (by simp [hpk])]
        have h2 := ih
        simp only [lookupA, if_neg hk] at h2
        exact h2
    · by_cases hpk : p.1 = k
      · have hk : ¬k = a := fun h => hp (by rw [hpk, h])
        simp only [if_neg hp, lookupA, if_neg hk]
        rw [List.find?_cons_of_pos _ (by simp [hpk]),
          List.find?_cons_of_pos _ (by simp [hpk])]
      · simp only [if_neg hp, lookupA]
        rw [List.find?_cons_of_neg _ (by simp [hpk]),
          List.find?_cons_of_neg _ (by simp [hpk])]
        have h2 := ih
        simp only [lookupA] at h2
        rw [h2]
        by_cases hk : k = a
        · rw [if_pos hk, if_pos hk]
          by_cases hrest : (rest.any fun q => decide (q.1 = a)) = true
          · rw [if_pos hrest, if_pos (Or.inr hrest)]
          · rw [if_neg hrest, if_neg (fun hor =>
              hor.elim (fun h1 => hp (of_decide_eq_true h1)) hrest)]
        · rw [if_neg hk, if_neg hk]

theorem lookupA_append_single {α : Type} (m : List (ℚ × α)) (a : ℚ) (b : α) (k : ℚ)
    (h : m.any (fun p => decide (p.1 = a)) = false) :
    lookupA (m ++ [(a, b)]) k = if k = a then some b else lookupA m k := by
  induction m with
  | nil =>
    by_cases hk : k = a
    · subst hk
      simp only [List.nil_append, lookupA, if_pos rfl]
      rw [List.find?_cons_of_pos _ (by simp)]
      rfl
    · have hak : ¬a = k := fun h2 => hk h2.symm
      simp only [List.nil_append, lookupA, if_neg hk]
      rw [List.find?_cons_of_neg _ (by simp [hak])]
  | cons p rest ih =>
    simp only [List.any_cons, Bool.or_eq_false_iff] at h
    by_cases hpk : p.1 = k
    · have hk : ¬k = a := by
        intro hka
        rw [hka] at hpk
        simp [hpk] at h
      simp only [List.cons_append, lookupA, if_neg hk]
      rw [List.find?_cons_of_pos _ (by simp [hpk]),
        List.find?_cons_of_pos _ (by simp [hpk])]
    · simp only [List.cons_append, lookupA]
      rw [List.find?_cons_of_neg _ (by simp [hpk]),
        List.find?_cons_of_neg _ (by simp [hpk])]
      have := ih h.2
      simp only [lookupA] at this
      exact this

theorem lookupA_insertA {α : Type} (m : List (ℚ × α)) (a : ℚ) (b : α) (k : ℚ) :
    lookupA (insertA m a b) k = if k = a then some b else lookupA m k := by
  unfold insertA
  by_cases hany : m.any (fun p => decide (p.1 = a)) = true
  · rw [if_pos hany, lookupA_map_replace, hany]
    by_cases hk : k = a <;> simp [hk]
  · rw [if_neg hany]
    exact lookupA_append_single m a b k (Bool.not_eq_true _ ▸ hany)

theorem lookupA_foldl_insertA {α : Type} (new : List (ℚ × α)) (m : List (ℚ × α))
    (k : ℚ) :
    lookupA (new.foldl (fun acc p => insertA acc p.1 p.2) m) k =
      (match new.reverse.find? (fun p => decide (p.1 = k)) with
       | some e => some e.2
       | none => lookupA m k) := by
  induction new generalizing m with
  | nil => simp
  | cons e rest ih =>
    rw [List.foldl_cons, ih, List.reverse_cons, List.find?_append]
    cases h : rest.reverse.find? (fun p => decide (p.1 = k)) with
    | some x => simp [Option.or]
    | none =>
      simp only [Option.or]
      rw [lookupA_insertA]
      by_cases hk : k = e.1
      · subst hk
        rw [List.find?_cons_of_pos _ (by simp)]
        simp
      · have hek : ¬e.1 = k := fun h2 => hk h2.symm
        rw [List.find?_cons_of_neg _ (by simp [hek])]
        simp [hk]

theorem lookupA_updateA {α : Type} (m new : List (ℚ × α)) (k : ℚ) :
    lookupA (updateA m new) k =
      (match new.reverse.find? (fun p => decide (p.1 = k)) with
       | some e => some e.2
       | none => lookupA m k) :=
  lookupA_foldl_insertA new m k

theorem lookupA_buildDict (entries : List (ℚ × ℚ)) (k : ℚ) :
    lookupA (buildDict entries) k =
      (entries.reverse.find? (fun p => decide (p.1 = k))).map Prod.snd := by
  rw [buildDict, lookupA_updateA]
  cases h : entries.reverse.find? (fun p => decide (p.1 = k)) with
  | some x => simp
  | none => simp [lookupA]

theorem burst_foldl {P : Type} (rest : List (Nat × P)) (t : Nat) (p : P)
    (hchain : List.Chain' (fun a b => a.1 < b.1 ∧ b.1 < a.1 + RENDER_DEBOUNCE_MS)
      ((t, p) :: rest)) :
    ∃ last : Nat × P, ((t, p) :: rest).getLast? = some last ∧
      rest.foldl (applyEvent true RENDER_DEBOUNCE_MS)
        ⟨p, some (t + RENDER_DEBOUNCE_MS), []⟩ =
        ⟨last.2, some (last.1 + RENDER_DEBOUNCE_MS), []⟩ := by
  induction rest generalizing t p with
  | nil => exact ⟨(t, p), rfl, rfl⟩
  | cons e rest2 ih =>
    rcases List.chain'_cons.mp hchain with ⟨⟨_, hgap⟩, hchain2⟩
    obtain ⟨last, hlast, hfold⟩ := ih e.1 e.2 hchain2
    refine ⟨last, ?_, ?_⟩
    · rw [List.getLast?_cons_cons]
      exact hlast
    · rw [List.foldl_cons]
      have hstep : applyEvent true RENDER_DEBOUNCE_MS
          ⟨p, some (t + RENDER_DEBOUNCE_MS), []⟩ e =
          ⟨e.2, some (e.1 + RENDER_DEBOUNCE_MS), []⟩ := by
        simp [applyEvent, fireDue, Nat.not_le.mpr hgap]
      rw [hstep]
      exact hfold

theorem unloaded_foldl {P : Type} (events : List (Nat × P)) (p : P) :
    ∃ q, events.foldl (applyEvent false RENDER_DEBOUNCE_MS) ⟨p, none, []⟩ =
      ⟨q, none, []⟩ := by
  induction events generalizing p with
  | nil => exact ⟨p, rfl⟩
  | cons e rest ih =>
    rw [List.foldl_cons]
    have hstep : applyEvent false RENDER_DEBOUNCE_MS ⟨p, none, []⟩ e =
        ⟨e.2, none, []⟩ := by
      simp [applyEvent, fireDue]
    rw [hstep]
    exact ih e.2

/-- Claim C7: for a burst of at least one parameter-change event in which
consecutive events are separated by less than the 80 ms quiet period, running
the scheduler with a volume loaded executes exactly one render, at the quiet
period after the last event and with the parameters of the last event; with
no volume loaded the same burst executes no render at all. -/
theorem debounce_coalesces (P : Type) (p0 : P) (events : List (Nat × P))
    (hne : events ≠ [])
    (hchain : List.Chain' (fun a b => a.1 < b.1 ∧ b.1 < a.1 + RENDER_DEBOUNCE_MS)
      events) :
    (∃ last, events.getLast? = some last ∧
      (runSched true RENDER_DEBOUNCE_MS p0 events).renders =
        [(last.1 + RENDER_DEBOUNCE_MS, last.2)]) ∧
    (runSched false RENDER_DEBOUNCE_MS p0 events).renders = [] := by
  constructor
  · cases events with
    | nil => exact absurd rfl hne
    | cons e rest =>
      obtain ⟨last, hlast, hfold⟩ := burst_foldl rest e.1 e.2 hchain
      refine ⟨last, hlast, ?_⟩
      rw [runSched, List.foldl_cons]
      have hstep : applyEvent true RENDER_DEBOUNCE_MS ⟨p0, none, []⟩ e =
          ⟨e.2, some (e.1 + RENDER_DEBOUNCE_MS), []⟩ := by
        simp [applyEvent, fireDue]
      rw [hstep, hfold]
      simp [finalizeSched]
  · obtain ⟨q, hq⟩ := unloaded_foldl events p0
    rw [runSched, hq]
    simp [finalizeSched]

/-- Witness for C7: two events 50 ms apart coalesce into one render at 130 ms
with the second event parameters, and no render happens unloaded. -/
theorem debounce_coalesces_witness :
    (∃ last, ([((0 : Nat), (1 : Nat)), (50, 2)] : List (Nat × Nat)).getLast? = some last ∧
      (runSched true RENDER_DEBOUNCE_MS (0 : Nat) [(0, 1), (50, 2)]).renders =
        [(last.1 + RENDER_DEBOUNCE_MS, last.2)]) ∧
    (runSched false RENDER_DEBOUNCE_MS (0 : Nat) [(0, 1), (50, 2)]).renders = [] :=
  debounce_coalesces Nat 0 [(0, 1), (50, 2)] (by decide)
    (by simp [RENDER_DEBOUNCE_MS])

/-- Claim C8: a load attempt that fails, because the path does not exist or
because decoding raises, leaves the volume, spacing, origin, label list,
check states, label colors and rendered scene exactly as they were; only the
status message changes and no partial volume is installed. -/
theorem load_failure_preserves_state (lib : GeomLib) (sigma : ℚ)
    (smooth_iter : Nat) (s : GuiState) (pathExists : Bool)
    (decoded : Option (List ℚ × (ℚ × ℚ × ℚ) × (ℚ × ℚ × ℚ)))
    (hfail : pathExists = false ∨ decoded = none) :
    (load_volume lib sigma smooth_iter s pathExists decoded).volume = s.volume ∧
    (load_volume lib sigma smooth_iter s pathExists decoded).spacing = s.spacing ∧
    (load_volume lib sigma smooth_iter s pathExists decoded).origin = s.origin ∧
    (load_volume lib sigma smooth_iter s pathExists decoded).labelItems = s.labelItems ∧
    (load_volume lib sigma smooth_iter s pathExists decoded).labelChecked = s.labelChecked ∧
    (load_volume lib sigma smooth_iter s pathExists decoded).labelColors = s.labelColors ∧
    (load_volume lib sigma smooth_iter s pathExists decoded).scene = s.scene := by
  rcases hfail with h | h
  · simp [load_volume, h]
  · by_cases hp : pathExists = false
    · simp [load_volume, hp]
    · simp [load_volume, hp, h]

/-- Witness for C8 at a concrete prior session state and a nonexistent path. -/
theorem load_failure_preserves_state_witness :
    (load_volume demoLib 1 5 sampleGui false none).volume = sampleGui.volume ∧
    (load_volume demoLib 1 5 sampleGui false none).spacing = sampleGui.spacing ∧
    (load_volume demoLib 1 5 sampleGui false none).origin = sampleGui.origin ∧
    (load_volume demoLib 1 5 sampleGui false none).labelItems = sampleGui.labelItems ∧
    (load_volume demoLib 1 5 sampleGui false none).labelChecked = sampleGui.labelChecked ∧
    (load_volume demoLib 1 5 sampleGui false none).labelColors = sampleGui.labelColors ∧
    (load_volume demoLib 1 5 sampleGui false none).scene = sampleGui.scene :=
  load_failure_preserves_state demoLib 1 5 sampleGui false none (Or.inl rfl)

theorem insertA_ne_nil {α : Type} (m : List (ℚ × α)) (a : ℚ) (b : α) :
    insertA m a b ≠ [] := by
  unfold insertA
  split
  · rename_i h
    obtain ⟨x, hx, _⟩ := List.any_eq_true.mp h
    intro hmap
    rw [List.map_eq_nil_iff] at hmap
    subst hmap
    exact absurd hx (List.not_mem_nil x)
  · simp

theorem foldl_insertA_ne_nil {α : Type} (entries : List (ℚ × α))
    (m : List (ℚ × α)) (h : m ≠ []) :
    entries.foldl (fun acc p => insertA acc p.1 p.2) m ≠ [] := by
  induction entries generalizing m with
  | nil => exact h
  | cons e rest ih => exact ih _ (insertA_ne_nil m e.1 e.2)

theorem buildDict_eq_nil_iff (entries : List (ℚ × ℚ)) :
    buildDict entries = [] ↔ entries = [] := by
  constructor
  · intro h
    cases entries with
    | nil => rfl
    | cons e rest =>
      exact absurd h (by
        rw [buildDict, updateA, List.foldl_cons]
        exact foldl_insertA_ne_nil rest _ (insertA_ne_nil [] e.1 e.2))
  · intro h
    subst h
    rfl

theorem auto_range_labelValues (s : PanelState) :
    (auto_range s).labelValues = s.labelValues := by
  unfold auto_range
  split
  · rfl
  · rfl

/-- Counterexample to claim C9: a value-table load in which zero rows parse
as valid pairs is not a complete no-op. With the table mapping 1 to 1 already
loaded, loading a file whose only row has no numeric cells leaves the table
empty, not equal to its previous contents. -/
theorem load_values_zero_rows_counterexample :
    (load_values ⟨[(1, 1)], 0, 1⟩ true
      [[⟨"a", none⟩, ⟨"b", none⟩]]).state.labelValues = [] ∧
    (load_values ⟨[(1, 1)], 0, 1⟩ true
      [[⟨"a", none⟩, ⟨"b", none⟩]]).state.labelValues ≠ [(1, 1)] := by
  decide

/-- Claim C9 amended: a value-table load in which zero rows parse as valid
pairs installs no value table and raises no error, and leaves the range and
emission state unchanged, but it clears any previously loaded value table
(the table is cleared before parsing begins); a load from a nonexistent path
is a complete no-op. -/
theorem load_values_zero_rows_amended :
    (∀ (s : PanelState) (file : List (List Cell)),
      buildDict (parseEntries file) = [] →
      load_values s true file = ⟨{ s with labelValues := [] }, false⟩) ∧
    (∀ (s : PanelState) (file : List (List Cell)),
      load_values s false file = ⟨s, false⟩) := by
  constructor
  · intro s file h
    simp [load_values, h]
  · intro s file
    simp [load_values]

/-- Witness for the amended C9 at a concrete prior table and files. -/
theorem load_values_zero_rows_amended_witness :
    load_values ⟨[(1, 1)], 0, 1⟩ true [[⟨"x", none⟩]] =
      ⟨{ (⟨[(1, 1)], 0, 1⟩ : PanelState) with labelValues := [] }, false⟩ ∧
    load_values ⟨[(1, 1)], 0, 1⟩ false [] =
      ⟨(⟨[(1, 1)], 0, 1⟩ : PanelState), false⟩ :=
  ⟨load_values_zero_rows_amended.1 ⟨[(1, 1)], 0, 1⟩ [[⟨"x", none⟩]] (by decide),
   load_values_zero_rows_amended.2 ⟨[(1, 1)], 0, 1⟩ []⟩

/-- Claim C10: after a value-table load, the value stored for any label is
the value of the last row of the file that validly mentions that label,
where the valid rows include the first row of the file whenever both of its
detected columns parse as floats; in particular, when no later row shares
its label, the first row ends up in the table as a data row. -/
theorem load_values_first_row_and_last_wins :
    (∀ (s : PanelState) (file : List (List Cell)) (k : ℚ),
      lookupA (load_values s true file).state.labelValues k =
        ((parseEntries file).reverse.find?
          (fun e => decide (e.1 = k))).map Prod.snd) ∧
    (∀ (s : PanelState) (header : List Cell) (body : List (List Cell)) (l v : ℚ),
      headerEntry header (detectCols header).1 (detectCols header).2 = some (l, v) →
      (body.filterMap
        (rowEntry (detectCols header).1 (detectCols header).2)).reverse.find?
          (fun e => decide (e.1 = l)) = none →
      lookupA (load_values s true (header :: body)).state.labelValues l = some v) := by
  have part1 : ∀ (s : PanelState) (file : List (List Cell)) (k : ℚ),
      lookupA (load_values s true file).state.labelValues k =
        ((parseEntries file).reverse.find?
          (fun e => decide (e.1 = k))).map Prod.snd := by
    intro s file k
    unfold load_values
    rw [if_neg (by simp)]
    by_cases hb : buildDict (parseEntries file) = []
    · rw [if_pos hb]
      have hent : parseEntries file = [] := (buildDict_eq_nil_iff _).mp hb
      simp [lookupA, hent]
    · rw [if_neg hb]
      show lookupA (auto_range _).labelValues k = _
      rw [auto_range_labelValues]
      exact lookupA_buildDict (parseEntries file) k
  refine ⟨part1, ?_⟩
  intro s header body l v hh hnone
  rw [part1 s (header :: body) l]
  have hp : parseEntries (header :: body) =
      (l, v) :: body.filterMap
        (rowEntry (detectCols header).1 (detectCols header).2) := by
    simp [parseEntries, hh]
  rw [hp, List.reverse_cons, List.find?_append, hnone]
  rw [List.find?_cons_of_pos _ (by simp)]
  rfl

/-- Witness for C10: a file whose first row is numeric data (3, 5) followed
by one body row (4, 1); the first row is ingested and lookups follow the
last valid row per label. -/
theorem load_values_first_row_and_last_wins_witness :
    lookupA (load_values ⟨[], 0, 1⟩ true
        [[⟨"3", some 3⟩, ⟨"5", some 5⟩], [⟨"4", some 4⟩, ⟨"1", some 1⟩]]).state.labelValues 4 =
      ((parseEntries [[⟨"3", some 3⟩, ⟨"5", some 5⟩],
        [⟨"4", some 4⟩, ⟨"1", some 1⟩]]).reverse.find?
          (fun e => decide (e.1 = 4))).map Prod.snd ∧
    lookupA (load_values ⟨[], 0, 1⟩ true
        [[⟨"3", some 3⟩, ⟨"5", some 5⟩], [⟨"4", some 4⟩, ⟨"1", some 1⟩]]).state.labelValues 3 =
      some 5 :=
  ⟨load_values_first_row_and_last_wins.1 ⟨[], 0, 1⟩
      [[⟨"3", some 3⟩, ⟨"5", some 5⟩], [⟨"4", some 4⟩, ⟨"1", some 1⟩]] 4,
   load_values_first_row_and_last_wins.2 ⟨[], 0, 1⟩
      [⟨"3", some 3⟩, ⟨"5", some 5⟩] [[⟨"4", some 4⟩, ⟨"1", some 1⟩]] 3 5
      (by decide) (by decide)⟩

theorem mem_insertA {α : Type} (m : List (ℚ × α)) (a : ℚ) (b : α) (q : ℚ × α)
    (hq : q ∈ insertA m a b) : q.1 = a ∨ q ∈ m := by
  unfold insertA at hq
  split at hq
  · obtain ⟨p, hp, hpq⟩ := List.mem_map.mp hq
    by_cases hpa : p.1 = a
    · rw [if_pos hpa] at hpq
      left
      rw [← hpq]
    · rw [if_neg hpa] at hpq
      right
      rw [← hpq]
      exact hp
  · rcases List.mem_append.mp hq with h1 | h1
    · exact Or.inr h1
    · left
      rw [List.mem_singleton.mp h1]

theorem insertA_keys_nodup {α : Type} (m : List (ℚ × α)) (a : ℚ) (b : α)
    (h : (m.map Prod.fst).Nodup) : ((insertA m a b).map Prod.fst).Nodup := by
  unfold insertA
  split
  · have hk : (m.map (fun p => if p.1 = a then (a, b) else p)).map Prod.fst =
        m.map Prod.fst := by
      rw [List.map_map]
      apply List.map_congr_left
      intro p _
      by_cases hp : p.1 = a
      · simp [hp]
      · simp [hp]
    rw [hk]
    exact h
  · rename_i hany
    rw [List.map_append]
    simp only [List.map_cons, List.map_nil]
    refine List.Nodup.append h (List.nodup_singleton a) ?_
    intro x hx hxa
    rw [List.mem_singleton] at hxa
    subst hxa
    obtain ⟨p, hp, hpa⟩ := List.mem_map.mp hx
    exact hany (List.any_eq_true.mpr ⟨p, hp, by simp [hpa]⟩)

theorem reverse_find?_eq_of_nodup_keys {α : Type} (l : List (ℚ × α)) (k : ℚ)
    (h : (l.map Prod.fst).Nodup) :
    l.reverse.find? (fun p => decide (p.1 = k)) =
      l.find? (fun p => decide (p.1 = k)) := by
  induction l with
  | nil => rfl
  | cons x xs ih =>
    rw [List.reverse_cons, List.find?_append]
    simp only [List.map_cons, List.nodup_cons] at h
    by_cases hx : x.1 = k
    · have hxs : xs.reverse.find? (fun p => decide (p.1 = k)) = none := by
        rw [List.find?_eq_none]
        intro q hq
        simp only [decide_eq_true_eq]
        intro hqk
        exact h.1 (List.mem_map.mpr ⟨q, List.mem_reverse.mp hq, by rw [hqk, hx]⟩)
      rw [hxs, List.find?_cons_of_pos _ (by simp [hx]),
        List.find?_cons_of_pos _ (by simp [hx])]
      rfl
    · rw [List.find?_cons_of_neg _ (by simp [hx]),
        List.find?_cons_of_neg _ (by simp [hx])]
      simp only [List.find?_nil, Option.or_none]
      exact ih h.2

theorem compute_colors_aux_nodup (cmap : ℚ → String) (vmin vmax : Option ℚ)
    (labelValues : List (ℚ × ℚ)) (labels : List ℚ) (acc : List (ℚ × String))
    (h : (acc.map Prod.fst).Nodup) :
    ((labels.foldl (fun colors lbl =>
      match lookupA labelValues lbl with
      | some v => insertA colors lbl (get_color_for_value cmap vmin vmax v)
      | none => colors) acc).map Prod.fst).Nodup := by
  induction labels generalizing acc with
  | nil => exact h
  | cons l rest ih =>
    cases hv : lookupA labelValues l with
    | some v =>
      simp only [List.foldl_cons, hv]
      exact ih _ (insertA_keys_nodup acc l _ h)
    | none =>
      simp only [List.foldl_cons, hv]
      exact ih _ h

theorem compute_colors_aux_skip (cmap : ℚ → String) (vmin vmax : Option ℚ)
    (labelValues : List (ℚ × ℚ)) (labels : List ℚ) (acc : List (ℚ × String))
    (k : ℚ) (h : k ∉ labels) :
    lookupA (labels.foldl (fun colors lbl =>
      match lookupA labelValues lbl with
      | some v => insertA colors lbl (get_color_for_value cmap vmin vmax v)
      | none => colors) acc) k = lookupA acc k := by
  induction labels generalizing acc with
  | nil => rfl
  | cons l rest ih =>
    have hlk : ¬(k = l) := fun he => h (he ▸ List.mem_cons_self l rest)
    have hrest : k ∉ rest := fun hr => h (List.mem_cons_of_mem l hr)
    cases hv : lookupA labelValues l with
    | some c =>
      simp only [List.foldl_cons, hv]
      rw [ih _ hrest, lookupA_insertA, if_neg hlk]
    | none =>
      simp only [List.foldl_cons, hv]
      exact ih _ hrest

theorem compute_colors_aux_known (cmap : ℚ → String) (vmin vmax : Option ℚ)
    (labelValues : List (ℚ × ℚ)) (labels : List ℚ) (acc : List (ℚ × String))
    (k v : ℚ) (hv : lookupA labelValues k = some v) (hk : k ∈ labels) :
    lookupA (labels.foldl (fun colors lbl =>
      match lookupA labelValues lbl with
      | some v2 => insertA colors lbl (get_color_for_value cmap vmin vmax v2)
      | none => colors) acc) k = some (get_color_for_value cmap vmin vmax v) := by
  induction labels generalizing acc with
  | nil => exact absurd hk (List.not_mem_nil k)
  | cons l rest ih =>
    by_cases hkr : k ∈ rest
    · cases hv2 : lookupA labelValues l with
      | some c =>
        simp only [List.foldl_cons, hv2]
        exact ih _ hkr
      | none =>
        simp only [List.foldl_cons, hv2]
        exact ih _ hkr
    · have hkl : k = l := by
        rcases List.mem_cons.mp hk with h1 | h1
        · exact h1
        · exact absurd h1 hkr
      subst hkl
      simp only [List.foldl_cons, hv]
      rw [compute_colors_aux_skip cmap vmin vmax labelValues rest _ k hkr,
        lookupA_insertA, if_pos rfl]

theorem compute_colors_aux_keys (cmap : ℚ → String) (vmin vmax : Option ℚ)
    (labelValues : List (ℚ × ℚ)) (labels : List ℚ) (acc : List (ℚ × String))
    (k : ℚ) (hnone : lookupA labelValues k = none)
    (hacc : ∀ q ∈ acc, ¬(q.1 = k)) :
    ∀ q ∈ labels.foldl (fun colors lbl =>
      match lookupA labelValues lbl with
      | some v => insertA colors lbl (get_color_for_value cmap vmin vmax v)
      | none => colors) acc, ¬(q.1 = k) := by
  induction labels generalizing acc with
  | nil => exact hacc
  | cons l rest ih =>
    cases hv : lookupA labelValues l with
    | some c =>
      simp only [List.foldl_cons, hv]
      apply ih
      intro q hq
      rcases mem_insertA acc l _ q hq with hq1 | hq1
      · intro hqk
        rw [hq1.symm.trans hqk] at hv
        rw [hv] at hnone
        exact Option.noConfusion hnone
      · exact hacc q hq1
    | none =>
      simp only [List.foldl_cons, hv]
      exact ih _ hacc

theorem compute_colors_nodup (cmap : ℚ → String) (vmin vmax : Option ℚ)
    (labelValues : List (ℚ × ℚ)) (labels : List ℚ) :
    ((compute_colors cmap vmin vmax labelValues labels).map Prod.fst).Nodup :=
  compute_colors_aux_nodup cmap vmin vmax labelValues labels [] (by simp)

theorem compute_colors_known (cmap : ℚ → String) (vmin vmax : Option ℚ)
    (labelValues : List (ℚ × ℚ)) (labels : List ℚ) (k v : ℚ)
    (hv : lookupA labelValues k = some v) (hk : k ∈ labels) :
    lookupA (compute_colors cmap vmin vmax labelValues labels) k =
      some (get_color_for_value cmap vmin vmax v) :=
  compute_colors_aux_known cmap vmin vmax labelValues labels [] k v hv hk

theorem compute_colors_keys (cmap : ℚ → String) (vmin vmax : Option ℚ)
    (labelValues : List (ℚ × ℚ)) (labels : List ℚ) (k : ℚ)
    (hnone : lookupA labelValues k = none) :
    ∀ q ∈ compute_colors cmap vmin vmax labelValues labels, ¬(q.1 = k) :=
  compute_colors_aux_keys cmap vmin vmax labelValues labels [] k hnone
    (by intro q hq; exact absurd hq (List.not_mem_nil q))

/-- Counterexample to claim C4: in colormap mode a label without a known
value is not assigned the neutral default color at render time. With labels
1 and 2 palette-colored, the value table knowing only label 1, and colormap
mode on, the render color of label 2 is its palette color, not the neutral
default. -/
theorem colormap_unknown_label_counterexample :
    renderColor
      (update_colors_from_colormap true (fun _ => "#000000") (some 0) (some 1)
        [(1, 1)] (paletteAssign [1, 2])) 1 2 = "#E45756" ∧
    renderColor
      (update_colors_from_colormap true (fun _ => "#000000") (some 0) (some 1)
        [(1, 1)] (paletteAssign [1, 2])) 1 2 ≠ neutralColor ∧
    "#E45756" ∈ PALETTE := by
  decide

/-- Claim C4 amended: in colormap mode each label with a known value is
assigned the colormap color of its normalized value, while a label without a
known value keeps the color it already had (its palette assignment or manual
override) rather than being assigned the neutral default color. -/
theorem colormap_colors_amended (cmap : ℚ → String) (vmin vmax : Option ℚ)
    (labelValues : List (ℚ × ℚ)) (labelColors : List (ℚ × String)) (lbl : ℚ) :
    (∀ v, lbl ∈ labelColors.map Prod.fst → lookupA labelValues lbl = some v →
      lookupA (update_colors_from_colormap true cmap vmin vmax labelValues
        labelColors) lbl = some (get_color_for_value cmap vmin vmax v)) ∧
    (lookupA labelValues lbl = none →
      lookupA (update_colors_from_colormap true cmap vmin vmax labelValues
        labelColors) lbl = lookupA labelColors lbl) := by
  constructor
  · intro v hmem hv
    unfold update_colors_from_colormap
    rw [if_neg (by simp), lookupA_updateA,
      reverse_find?_eq_of_nodup_keys _ _
        (compute_colors_nodup cmap vmin vmax labelValues (labelColors.map Prod.fst))]
    have hlook := compute_colors_known cmap vmin vmax labelValues
      (labelColors.map Prod.fst) lbl v hv hmem
    unfold lookupA at hlook
    cases hfind : (compute_colors cmap vmin vmax labelValues
        (labelColors.map Prod.fst)).find? (fun p => decide (p.1 = lbl)) with
    | none =>
      rw [hfind] at hlook
      exact absurd hlook (by simp)
    | some e =>
      rw [hfind] at hlook
      simp only [hfind]
      exact hlook
  · intro hv
    unfold update_colors_from_colormap
    rw [if_neg (by simp), lookupA_updateA]
    have hfind : (compute_colors cmap vmin vmax labelValues
        (labelColors.map Prod.fst)).reverse.find?
          (fun p => decide (p.1 = lbl)) = none := by
      rw [List.find?_eq_none]
      intro q hq
      simp only [decide_eq_true_eq]
      exact compute_colors_keys cmap vmin vmax labelValues
        (labelColors.map Prod.fst) lbl hv q (List.mem_reverse.mp hq)
    simp only [hfind]

/-- Witness for the amended C4: label 1 has a value and receives the colormap
color, label 2 has none and keeps its palette color. -/
theorem colormap_colors_amended_witness :
    lookupA (update_colors_from_colormap true (fun _ => "#000000") (some 0)
      (some 1) [(1, 1)] (paletteAssign [1, 2])) 1 =
      some (get_color_for_value (fun _ => "#000000") (some 0) (some 1) 1) ∧
    lookupA (update_colors_from_colormap true (fun _ => "#000000") (some 0)
      (some 1) [(1, 1)] (paletteAssign [1, 2])) 2 =
      lookupA (paletteAssign [1, 2]) 2 :=
  ⟨(colormap_colors_amended (fun _ => "#000000") (some 0) (some 1) [(1, 1)]
      (paletteAssign [1, 2]) 1).1 1 (by decide) (by decide),
   (colormap_colors_amended (fun _ => "#000000") (some 0) (some 1) [(1, 1)]
      (paletteAssign [1, 2]) 2).2 (by decide)⟩

end SubcortexVis
